import Mathlib

/-!
Run orchestration of the embedded IDE (`resources/libs/ace-editor/ide.js`).

A shallow embedding of `runCode`, `deleteSubmission`, `getCsrfToken` and `decodeAnsi`.

* JavaScript strings are Lean strings: the regular expressions of `decodeAnsi` only mention
  ASCII characters, so working on code points instead of UTF-16 code units makes no
  difference.
* A JSON field that may be missing is an `Option`; the truthiness tests of the source
  (`x || d`, `if (x)`) treat a missing field and the empty string alike.
* The DOM objects the functions touch are fields of a `Page` record.  The terminal is a
  text area: its raw value is the string last assigned to `value`, and reading `value`
  returns it with CR LF and CR normalised to LF.
* A promise chain is written step by step on settled promises; the events of the
  WebSocket are dispatched one at a time on the state of the run, the way the user agent
  does: `message` events are fired only while the socket is open.
-/

namespace Ide

/-! ## Text normalisation: `decodeAnsi` -/

/-- The escape character `\u001b`. -/
def ESC : Char := '\x1b'

/-- The character class `[0-9;]`. -/
def isSgrParam (c : Char) : Bool := c.isDigit || c == ';'

/-- Length of the match of `/\u001b\[[0-9;]*m/` anchored at the head of the input, if any.
The class `[0-9;]` does not contain `m`, so the greedy star followed by `m` matches
exactly when the first character after the parameters is `m`. -/
def matchSgr : List Char → Option Nat
  | [] => none
  | c :: cs =>
    if c = ESC then
      match cs with
      | '[' :: rest =>
        match rest.dropWhile isSgrParam with
        | 'm' :: _ => some ((rest.takeWhile isSgrParam).length + 3)
        | _ => none
      | _ => none
    else none

/-- Length of the match of `/\u001b\[K/` anchored at the head of the input, if any. -/
def matchEraseLine : List Char → Option Nat
  | [] => none
  | c :: cs =>
    if c = ESC then
      match cs with
      | '[' :: 'K' :: _ => some 3
      | _ => none
    else none

/-- Length of the match of `/\r/` anchored at the head of the input, if any. -/
def matchCR : List Char → Option Nat
  | [] => none
  | c :: _ => if c = '\r' then some 1 else none

/-- Length of the match of `/\n{2,}/` anchored at the head of the input, if any (greedy:
the whole run of newlines). -/
def matchNewlines : List Char → Option Nat
  | [] => none
  | c :: cs =>
    if c = '\n' then
      match cs with
      | '\n' :: rest => some ((rest.takeWhile (fun d => d == '\n')).length + 2)
      | _ => none
    else none

/-- The method `String.prototype.replace` with a global regular expression that never matches the
empty string: scan left to right, at each position try the pattern, replace a match by
`rep` and resume right after it, copy an unmatched character.  `skip` counts the
characters of the current match that are still to be dropped. -/
def replaceAll (m : List Char → Option Nat) (rep : List Char) : Nat → List Char → List Char
  | _, [] => []
  | skip + 1, _ :: cs => replaceAll m rep skip cs
  | 0, c :: cs =>
    match m (c :: cs) with
    | some (n + 1) => rep ++ replaceAll m rep n cs
    | _ => c :: replaceAll m rep 0 cs

/-- The function `decodeAnsi(str)`: the four chained `replace` calls, in source order. -/
def decodeAnsi (str : String) : String :=
  ⟨replaceAll matchNewlines ['\n'] 0
    (replaceAll matchCR [] 0
      (replaceAll matchEraseLine [] 0
        (replaceAll matchSgr [] 0 str.data)))⟩

/-- Some suffix of the text starts with a match of the pattern: the text contains a match. -/
def containsMatch (m : List Char → Option Nat) (l : List Char) : Bool :=
  l.tails.any (fun t => (m t).isSome)

/-- Every escape character of the text begins a complete SGR code or a complete
line-clear code. -/
def escapesWellFormed : List Char → Bool
  | [] => true
  | c :: cs =>
    (c != ESC || (matchSgr (c :: cs)).isSome || (matchEraseLine (c :: cs)).isSome)
      && escapesWellFormed cs

/-- Every escape character of the text begins a complete line-clear code. -/
def escapesEraseOnly : List Char → Bool
  | [] => true
  | c :: cs => (c != ESC || (matchEraseLine (c :: cs)).isSome) && escapesEraseOnly cs

/-- No two adjacent characters are both newlines. -/
def NoNewlineRun (l : List Char) : Prop :=
  List.Chain' (fun a b => ¬ (a = '\n' ∧ b = '\n')) l

/-! ## JavaScript values of the payloads -/

/-- A finite, JSON-representable JS Number, given by the decimal data of
`Number::toString`: the value is `± s × 10 ^ (n - k)`, where `k` is the number of decimal
digits of `s` and `s` has no trailing zero (`s = 0` stands for zero). -/
structure JSNumber where
  negative : Bool
  s : Nat
  n : Int

/-- The operation `Number::toString(x, 10)` of ECMAScript, which a template literal applies
to an interpolated number: plain decimal notation when `-5 ≤ n ≤ 21`, exponential
notation otherwise. -/
def numberToString (x : JSNumber) : String :=
  if x.s = 0 then "0"
  else
    let ds := Nat.toDigits 10 x.s
    let k := ds.length
    let body : List Char :=
      if -5 ≤ x.n ∧ x.n ≤ 21 then
        if (k : Int) ≤ x.n then ds ++ List.replicate (x.n.toNat - k) '0'
        else if 0 < x.n then ds.take x.n.toNat ++ '.' :: ds.drop x.n.toNat
        else '0' :: '.' :: List.replicate (-x.n).toNat '0' ++ ds
      else
        let e := (if x.n < 0 then '-' else '+') :: Nat.toDigits 10 (x.n - 1).natAbs
        if k = 1 then ds ++ 'e' :: e
        else ds.take 1 ++ '.' :: ds.drop 1 ++ 'e' :: e
    (if x.negative then "-" else "") ++ ⟨body⟩

/-- JS truthiness of a possibly absent string: `undefined` and `""` are falsy. -/
def truthy : Option String → Bool
  | some s => s != ""
  | none => false

/-- The expression `a || d` for a possibly absent string `a` and a string `d`. -/
def orElse (a : Option String) (d : String) : String :=
  match a with
  | some s => if s != "" then s else d
  | none => d

/-- The expression `a || b` for two possibly absent strings. -/
def orElse? (a b : Option String) : Option String :=
  if truthy a then a else b

/-- Interpolation of a possibly `undefined` string value in a template literal. -/
def interpolate : Option String → String
  | some s => s
  | none => "undefined"

/-! ## Payloads -/

/-- The object `msg.message.result.result` of an `on_test_case_ide` message. -/
structure ExecResult where
  proc_output : Option String
  error : Option String
  execution_time : JSNumber
  max_memory : JSNumber

/-- An element of `cases` in an `on_test_case_ide2` message. -/
structure TestCase where
  output : Option String
  time : JSNumber
  memory : JSNumber

/-- The object `msg.message.result` of an `on_test_case_ide2` message. -/
structure CaseStatus where
  name : Option String
  cases : Option (List TestCase)

/-- The three values of `msg.message.type` the handler compares against. -/
def terminalTypes : List String :=
  ["on_test_case_ide", "on_test_case_ide2", "ide-compile-error"]

/-- The decoded `msg.message` of an inbound event.  A message of a recognised type either
carries the payload its branch of the handler reads (`log` is the value of
`msg.message.msg?.log`, absent when either level is), or is `malformed`: its payload makes
the branch throw a `TypeError` at its first use, because `msg.message.result` or
`msg.message.result.result` is missing or `null` (`on_test_case_ide`,
`on_test_case_ide2`), because `cases[0]` is `null` (`on_test_case_ide2`), or because the
log is a truthy value without a `replace` method (`ide-compile-error`).  Every other
message only has its type tag. -/
inductive Message where
  | on_test_case_ide (resultData : ExecResult)
  | on_test_case_ide2 (resultData : CaseStatus)
  | ide_compile_error (log : Option String)
  | malformed (tag : String) (h : tag ∈ terminalTypes)
  | other (tag : String) (h : tag ∉ terminalTypes)

/-- The value of `msg.message.type`. -/
def Message.type : Message → String
  | .on_test_case_ide _ => "on_test_case_ide"
  | .on_test_case_ide2 _ => "on_test_case_ide2"
  | .ide_compile_error _ => "ide-compile-error"
  | .malformed tag _ => tag
  | .other tag _ => tag

/-- The JSON body of a response to `POST /problem/run_code`. -/
structure SubmitData where
  error : Option String
  channel : Option String
  submission_id : Option String
  detail : Option String

/-- The JSON body of a response to `POST /submission/delete/`; `success` is the truthiness
of `data.success`. -/
structure DeleteData where
  success : Bool
  error : Option String
  message : Option String

/-- How a `fetch` ends: the promise rejects (network failure), or a response arrives whose
`json()` either yields a body or rejects with a `SyntaxError` of the given message. -/
inductive FetchOutcome (α : Type) where
  | failed (message : String)
  | response (ok : Bool) (body : Except String α)

/-- A settled promise; a rejection carries the `message` of its error. -/
inductive Settled (α : Type) where
  | fulfilled (value : α)
  | rejected (message : String)

/-! ## The page and one run -/

/-- A line written to the console. -/
inductive ConsoleEntry where
  | warn (text : String) (detail : Option String)
  | error (text : String) (reason : String)

/-- The DOM state the functions read and write.  `terminalValue` is the raw value of the
`#terminal` text area, the string last assigned to its `value`, and
`terminalTextContent` the string last assigned to its `textContent`; an assignment to
`textContent` does not reach the value once `value` has been assigned, as `runCode` does
first.  `blurDisabled` tells whether the class list of `.submit-btn` contains
`blur-disabled`. -/
structure Page where
  terminalValue : String
  terminalTextContent : String
  blurDisabled : Bool
  cookie : String
  console : List ConsoleEntry

/-- The ready state of a WebSocket. -/
inductive ReadyState where
  | connecting
  | opened
  | closing
  | closed
deriving DecidableEq

/-- The WebSocket object of a run: its URL, its ready state, the channels of the
`set-filter` commands sent over it and the number of `close()` calls made on it. -/
structure Socket where
  url : String
  readyState : ReadyState
  sent : List (Option String)
  closeCalls : Nat

/-- The body of the run request. -/
structure RunRequest where
  language : String
  source : String
  stdin : String

/-- A deletion request: the id `deleteSubmission` was called with, the `X-CSRFToken`
header and the form body. -/
structure DeleteRequest where
  id : Option String
  csrfToken : String
  body : String

/-- One invocation of `runCode`: the page, the local `submissionId` (`none` is
`undefined`), the socket once constructed, and the log of the requests issued and of the
calls of `classList.remove` on the submit control. -/
structure Run where
  page : Page
  submissionId : Option String
  runRequests : List RunRequest
  socket : Option Socket
  deleted : List DeleteRequest
  enableCalls : Nat

/-- What `runCode` reads from its surroundings: the editor content, the input box, the
upper-cased text of the selected language option (an option is selected), and
`window.location`. -/
structure Env where
  editorValue : String
  inputValue : String
  selectedText : String
  protocol : String
  hostname : String

/-- Match of a CR LF pair at the head of the input, if any. -/
def matchCRLF : List Char → Option Nat
  | [] => none
  | c :: cs =>
    if c = '\r' then
      match cs with
      | '\n' :: _ => some 2
      | _ => none
    else none

/-- Newline normalisation of the HTML standard: every CR LF pair is replaced by LF, then
every remaining CR by LF. -/
def normalizeNewlines (s : String) : String :=
  ⟨(replaceAll matchCRLF ['\n'] 0 s.data).map (fun c => if c = '\r' then '\n' else c)⟩

/-- The getter of `terminal.value`: the raw value with its newlines normalised; this is
the text the control shows. -/
def Page.value (p : Page) : String :=
  normalizeNewlines p.terminalValue

/-- An event dispatched on the socket of a run; the data of a message event is `none`
when it does not decode to a message (`JSON.parse` throws, or `msg.message` is missing and
the access to its `type` throws). -/
inductive WsEvent where
  | opened
  | message (data : Option Message)
  | error

/-! ## `getCsrfToken` and `deleteSubmission` -/

/-- White space as removed by `String.prototype.trim`. -/
def isJsWhiteSpace (c : Char) : Bool :=
  c.val ∈ [0x9, 0xA, 0xB, 0xC, 0xD, 0x20, 0xA0, 0x1680, 0x2028, 0x2029, 0x202F, 0x205F,
    0x3000, 0xFEFF] || (0x2000 ≤ c.val && c.val ≤ 0x200A)

/-- The method `String.prototype.trim`. -/
def jsTrim (s : String) : String :=
  ⟨((s.data.dropWhile isJsWhiteSpace).reverse.dropWhile isJsWhiteSpace).reverse⟩

/-- The method `String.prototype.split` with a one-character separator, on characters. -/
def splitChars (sep : Char) : List Char → List (List Char)
  | [] => [[]]
  | c :: cs =>
    match splitChars sep cs with
    | [] => if c = sep then [[], []] else [[c]]
    | x :: xs => if c = sep then [] :: x :: xs else (c :: x) :: xs

/-- The method `String.prototype.split` with a one-character separator. -/
def jsSplit (s : String) (sep : Char) : List String :=
  (splitChars sep s.data).map String.mk

/-- The method `String.prototype.startsWith`. -/
def jsStartsWith (s start : String) : Bool :=
  start.data.isPrefixOf s.data

/-- The function `getCsrfToken()`, reading `document.cookie`. -/
def getCsrfToken (cookie : String) : String :=
  match (jsSplit cookie ';').find? (fun c => jsStartsWith (jsTrim c) "csrftoken=") with
  | some c => interpolate ((jsSplit c '=').get? 1)
  | none => ""

/-- The synchronous part of `deleteSubmission(submissionId)`: the request is issued. -/
def deleteSubmission (r : Run) (submissionId : Option String) : Run :=
  { r with deleted := r.deleted ++
      [{ id := submissionId, csrfToken := getCsrfToken r.page.cookie,
         body := "id=" ++ interpolate submissionId }] }

/-- The step `.then(response => response.json())` of `deleteSubmission`. -/
def deleteJson : FetchOutcome (Option DeleteData) → Settled (Option DeleteData)
  | .failed message => .rejected message
  | .response _ (.ok data) => .fulfilled data
  | .response _ (.error message) => .rejected message

/-- The step `.then(data => ...)` of `deleteSubmission`; a body that is JSON `null`
(`none`) makes the access `data.success` throw. -/
def deleteThen (p : Page) (submissionId : Option String) :
    Settled (Option DeleteData) → Page × Settled Unit
  | .rejected message => (p, .rejected message)
  | .fulfilled none => (p, .rejected "TypeError")
  | .fulfilled (some data) =>
    if data.success then (p, .fulfilled ())
    else
      ({ p with console := p.console ++
          [.warn ("⚠️ Failed to delete submission " ++ interpolate submissionId ++ ":")
            (orElse? data.error data.message)] }, .fulfilled ())

/-- The step `.catch(error => ...)` of `deleteSubmission`. -/
def deleteCatch (submissionId : Option String) : Page × Settled Unit → Page × Settled Unit
  | (p, .fulfilled v) => (p, .fulfilled v)
  | (p, .rejected message) =>
    ({ p with console := p.console ++
        [.error ("❌ Error deleting submission " ++ interpolate submissionId ++ ":") message] },
      .fulfilled ())

/-- The promise chain of `deleteSubmission`, once its `fetch` has ended with `o`: the
page afterwards and the state of the last promise of the chain. -/
def deleteSettled (p : Page) (submissionId : Option String)
    (o : FetchOutcome (Option DeleteData)) : Page × Settled Unit :=
  deleteCatch submissionId (deleteThen p submissionId (deleteJson o))

/-! ## `runCode` -/

/-- The assignment `terminal.value = text`. -/
def setTerminal (r : Run) (text : String) : Run :=
  { r with page := { r.page with terminalValue := text } }

/-- The assignment `terminal.value += text`: the getter is read, `text` is appended and
the result is assigned. -/
def appendTerminal (r : Run) (text : String) : Run :=
  { r with page := { r.page with terminalValue := r.page.value ++ text } }

/-- The call `classList.remove('blur-disabled')` on the submit control. -/
def enableSubmit (r : Run) : Run :=
  { r with page := { r.page with blurDisabled := false }, enableCalls := r.enableCalls + 1 }

/-- The method `close()` of a socket: an open or connecting socket starts closing,
otherwise nothing happens to the connection. -/
def Socket.close (ws : Socket) : Socket :=
  { ws with
    readyState :=
      if ws.readyState = .opened ∨ ws.readyState = .connecting then .closing
      else ws.readyState
    closeCalls := ws.closeCalls + 1 }

/-- The call `ws.close()` of the handlers. -/
def wsClose (r : Run) : Run :=
  match r.socket with
  | none => r
  | some ws => { r with socket := some ws.close }

/-- The handler `ws.onmessage`.  Each branch calls `ws.close()` first; on a malformed
payload the `TypeError` is thrown before the branch writes anything, it is not caught,
and the rest of the branch does not run. -/
def onmessage (r : Run) (data : Option Message) : Run :=
  match data with
  | none => r
  | some (.on_test_case_ide resultData) =>
    let r := wsClose r
    let r := setTerminal r (orElse resultData.proc_output "")
    let r := if truthy resultData.error then
        appendTerminal r ("\nError: " ++ interpolate resultData.error) else r
    let r := appendTerminal r
      ("\nElapsed Time: " ++ numberToString resultData.execution_time ++ "s")
    let r := appendTerminal r
      ("\nMemory Usage: " ++ numberToString resultData.max_memory ++ " KB")
    let r := deleteSubmission r r.submissionId
    enableSubmit r
  | some (.on_test_case_ide2 resultData) =>
    let r := wsClose r
    let r :=
      match resultData.name == some "test-case-status", resultData.cases with
      | true, some (testCase :: _) =>
        let r := setTerminal r (orElse testCase.output "")
        let r := appendTerminal r ("\nElapsed Time: " ++ numberToString testCase.time ++ "s")
        appendTerminal r ("\nMemory Usage: " ++ numberToString testCase.memory ++ " KB")
      | _, _ => setTerminal r "Compile Error!"
    let r := deleteSubmission r r.submissionId
    enableSubmit r
  | some (.ide_compile_error log) =>
    let r := wsClose r
    let compileLog := orElse log "Unknown Compile Error!"
    let r := setTerminal r ("Compile Error:\n" ++ decodeAnsi compileLog)
    let r := deleteSubmission r r.submissionId
    enableSubmit r
  | some (.malformed _ _) => wsClose r
  | some (.other _ _) => r

/-- The handler `ws.onopen`. -/
def onopen (r : Run) (channel : Option String) : Run :=
  match r.socket with
  | none => r
  | some ws => { r with socket := some { ws with sent := ws.sent ++ [channel] } }

/-- The handler `ws.onerror`. -/
def onerror (r : Run) : Run :=
  setTerminal r "WebSocket connection error."

/-- The user agent dispatching an event on the socket of the run.  `open` is fired on a
connecting socket, which becomes open; `message` is fired only while the ready state is
open; a failed connection is closed and `error` is fired. -/
def dispatch (channel : Option String) (r : Run) (e : WsEvent) : Run :=
  match r.socket with
  | none => r
  | some ws =>
    match e with
    | .opened =>
      if ws.readyState = .connecting then
        onopen { r with socket := some { ws with readyState := .opened } } channel
      else r
    | .message data => if ws.readyState = .opened then onmessage r data else r
    | .error =>
      if ws.readyState = .closed then r
      else onerror { r with socket := some { ws with readyState := .closed } }

/-- The language code sent to the judge. -/
def judgeLanguage (languageSelectedText : String) : String :=
  if languageSelectedText == "C" then "CICPC"
  else if languageSelectedText == "CPP20" then "CPPICPC"
  else languageSelectedText

/-- The synchronous part of `runCode()`, up to and including the call of `fetch`. -/
def runCodeStart (env : Env) (p : Page) : Run :=
  { page := { p with terminalValue := "Running code...\n", blurDisabled := true }
    submissionId := some "none"
    runRequests :=
      [{ language := judgeLanguage env.selectedText, source := env.editorValue,
         stdin := env.inputValue }]
    socket := none
    deleted := []
    enableCalls := 0 }

/-- The first `.then(response => ...)` of `runCode`: a response that is not `ok` is turned
into a rejection with `new Error(errorData.detail)`, whose message is empty when `detail`
is `undefined`. -/
def submitJson : FetchOutcome SubmitData → Settled SubmitData
  | .failed message => .rejected message
  | .response true (.ok data) => .fulfilled data
  | .response false (.ok errorData) =>
    .rejected (match errorData.detail with
      | some detail => detail
      | none => "")
  | .response _ (.error message) => .rejected message

/-- The URL of the WebSocket. -/
def wsUrl (env : Env) : String :=
  (if env.protocol == "https:" then "wss" else "ws") ++ "://" ++ env.hostname ++ ":" ++
    "15100" ++ "/"

/-- The second `.then(data => ...)` of `runCode`, followed by its `.catch(error => ...)`. -/
def submitSettled (env : Env) (r : Run) : Settled SubmitData → Run
  | .fulfilled data =>
    if truthy data.error then
      { r with page :=
          { r.page with terminalTextContent := "Error: " ++ interpolate data.error } }
    else
      let ws : Socket :=
        { url := wsUrl env, readyState := .connecting, sent := [], closeCalls := 0 }
      { r with submissionId := data.submission_id, socket := some ws }
  | .rejected message => setTerminal r ("Error: " ++ message)

/-- The channel the handlers of the run have captured. -/
def channelOf : Settled SubmitData → Option String
  | .fulfilled data => data.channel
  | .rejected _ => none

/-- A whole run: `runCode()` is called on page `p`, its `fetch` ends with `submit`, and
then the events `events` are dispatched on the socket, if one was constructed. -/
def runCode (env : Env) (p : Page) (submit : FetchOutcome SubmitData)
    (events : List WsEvent) : Run :=
  events.foldl (dispatch (channelOf (submitJson submit)))
    (submitSettled env (runCodeStart env p) (submitJson submit))

/-- The events of a connection that opens and then receives the messages `msgs`. -/
def openThen (msgs : List (Option Message)) : List WsEvent :=
  .opened :: msgs.map .message

/-- The message is of one of the three terminal types. -/
def isTerminal : Option Message → Bool
  | some m => decide (m.type ∈ terminalTypes)
  | none => false

/-- The message is of a terminal type and its branch of the handler runs to its end. -/
def completes : Option Message → Bool
  | some (.on_test_case_ide _) => true
  | some (.on_test_case_ide2 _) => true
  | some (.ide_compile_error _) => true
  | _ => false

/-- The number of `deleteSubmission` calls a sequence of messages leads to on an open
socket: one if its first message of a terminal type completes, none otherwise. -/
def cleanupCalls (msgs : List (Option Message)) : Nat :=
  match msgs.find? isTerminal with
  | some m => if completes m then 1 else 0
  | none => 0

/-- The number of `close()` calls made on the socket of the run. -/
def Run.closeCalls (r : Run) : Nat :=
  match r.socket with
  | some ws => ws.closeCalls
  | none => 0

/-! ## The outcomes as the specification words them -/

/-- The text the specification gives for an `on_test_case_ide` message: `proc_output`
(empty when absent), an error line when `error` is present, then the time and memory
lines. -/
def specExecText (resultData : ExecResult) : String :=
  resultData.proc_output.getD "" ++
    (match resultData.error with
      | some e => "\nError: " ++ e
      | none => "") ++
    "\nElapsed Time: " ++ numberToString resultData.execution_time ++ "s" ++
    "\nMemory Usage: " ++ numberToString resultData.max_memory ++ " KB"

/-- The text the specification gives for an `ide-compile-error` message: the normalised
log after `Compile Error:`, with `Unknown Compile Error!` for an absent log. -/
def specCompileText (log : Option String) : String :=
  "Compile Error:\n" ++ decodeAnsi (log.getD "Unknown Compile Error!")

/-! ## Sample inputs -/

/-- A page before a run. -/
def samplePage : Page :=
  { terminalValue := "", terminalTextContent := "", blurDisabled := false,
    cookie := "theme=dark; csrftoken=tok123", console := [] }

/-- The surroundings of a run. -/
def sampleEnv : Env :=
  { editorValue := "int main() { return 0; }", inputValue := "", selectedText := "C",
    protocol := "https:", hostname := "judge.example" }

/-- A submit response `{channel: "ch1", submission_id: "42"}`. -/
def sampleData : SubmitData :=
  { error := none, channel := some "ch1", submission_id := some "42", detail := none }

/-- A submit response `{channel: "ch1", submission_id: "none"}`. -/
def sentinelData : SubmitData :=
  { error := none, channel := some "ch1", submission_id := some "none", detail := none }

/-- The payload `{proc_output: "OK", execution_time: 0.12, max_memory: 1024}`. -/
def sampleResult : ExecResult :=
  { proc_output := some "OK", error := none, execution_time := ⟨false, 12, 0⟩,
    max_memory := ⟨false, 1024, 4⟩ }

/-- The payload `{proc_output: "OK", error: "", execution_time: 0.12, max_memory: 1024}`. -/
def emptyErrorResult : ExecResult :=
  { proc_output := some "OK", error := some "", execution_time := ⟨false, 12, 0⟩,
    max_memory := ⟨false, 1024, 4⟩ }

/-- The cases `[{output: "5", time: 0.01, memory: 512}, {output: "ignored", time: 9,
memory: 9}]`. -/
def sampleCases : List TestCase :=
  [{ output := some "5", time := ⟨false, 1, -1⟩, memory := ⟨false, 512, 3⟩ },
   { output := some "ignored", time := ⟨false, 9, 1⟩, memory := ⟨false, 9, 1⟩ }]

/-- The payload `{proc_output: "a\r\nb\rc", execution_time: 1, max_memory: 2}`. -/
def carriageReturnResult : ExecResult :=
  { proc_output := some "a\r\nb\rc", error := none, execution_time := ⟨false, 1, 1⟩,
    max_memory := ⟨false, 2, 1⟩ }

/-- The message `{type: "on_test_case_ide"}`, without `result`. -/
def bareMessage : Message := .malformed "on_test_case_ide" (by decide)

/-- The submit response `{}`. -/
def emptyData : SubmitData :=
  { error := none, channel := none, submission_id := none, detail := none }

/-- A message of an unrecognised type. -/
def pingMessage : Message := .other "ping" (by decide)

/-- Two unrecognised messages, a terminal one, and two more messages. -/
def sampleMessages : List (Option Message) :=
  [some pingMessage, some pingMessage, some (.on_test_case_ide sampleResult),
   some (.ide_compile_error none), some pingMessage]

/-- A compile log with colour codes, a line-clear code, a carriage return and three
consecutive newlines. -/
def sampleLog : String :=
  "\x1b[01;31merror\x1b[0m\x1b[K: expected ';'\r\n\n\n1 error"

/-- A run whose socket is open. -/
def sampleRun : Run :=
  runCode sampleEnv samplePage (.response true (.ok sampleData)) (openThen [])

/-! ### Lemmas on `replaceAll` -/

theorem replaceAll_nil (m : List Char → Option Nat) (rep : List Char) (n : Nat) :
    replaceAll m rep n [] = [] := by
  cases n <;> rfl

theorem replaceAll_skip (m : List Char → Option Nat) (rep : List Char) :
    ∀ (n : Nat) (l : List Char), replaceAll m rep n l = replaceAll m rep 0 (l.drop n)
  | 0, l => by simp
  | n + 1, [] => by simp [replaceAll_nil]
  | n + 1, _ :: cs => by
    simp only [replaceAll, List.drop_succ_cons]
    exact replaceAll_skip m rep n cs

theorem replaceAll_cons_of_match (m : List Char → Option Nat) (rep : List Char)
    (c : Char) (cs : List Char) (n : Nat) (h : m (c :: cs) = some (n + 1)) :
    replaceAll m rep 0 (c :: cs) = rep ++ replaceAll m rep 0 (cs.drop n) := by
  rw [replaceAll, h]
  simp only
  rw [replaceAll_skip]

theorem replaceAll_cons_of_none (m : List Char → Option Nat) (rep : List Char)
    (c : Char) (cs : List Char) (h : m (c :: cs) = none) :
    replaceAll m rep 0 (c :: cs) = c :: replaceAll m rep 0 cs := by
  rw [replaceAll, h]

/-- A replacement introduces no character that is neither in the input nor in `rep`. -/
theorem mem_replaceAll (m : List Char → Option Nat) (rep : List Char) (x : Char) :
    ∀ (l : List Char) (n : Nat), x ∈ replaceAll m rep n l → x ∈ rep ∨ x ∈ l
  | [], n, h => by simp [replaceAll_nil] at h
  | c :: cs, n + 1, h => by
    rw [replaceAll] at h
    rcases mem_replaceAll m rep x cs n h with h1 | h1
    · exact Or.inl h1
    · exact Or.inr (List.mem_cons_of_mem _ h1)
  | c :: cs, 0, h => by
    rw [replaceAll] at h
    split at h
    · rename_i k hk
      rcases List.mem_append.mp h with h1 | h1
      · exact Or.inl h1
      · rcases mem_replaceAll m rep x cs k h1 with h2 | h2
        · exact Or.inl h2
        · exact Or.inr (List.mem_cons_of_mem _ h2)
    · rcases List.mem_cons.mp h with h1 | h1
      · exact Or.inr (h1 ▸ List.mem_cons_self _ _)
      · rcases mem_replaceAll m rep x cs 0 h1 with h2 | h2
        · exact Or.inl h2
        · exact Or.inr (List.mem_cons_of_mem _ h2)

/-! ### Carriage returns -/

theorem not_mem_replaceAll_matchCR :
    ∀ (k : Nat) (l : List Char), l.length ≤ k → '\r' ∉ replaceAll matchCR [] 0 l
  | _, [], _ => by simp [replaceAll_nil]
  | 0, _ :: _, h => by simp at h
  | k + 1, c :: cs, h => by
    have hlen : cs.length ≤ k := by simpa using h
    by_cases hc : c = '\r'
    · rw [replaceAll_cons_of_match matchCR [] c cs 0 (by simp [matchCR, hc])]
      simpa using not_mem_replaceAll_matchCR k cs hlen
    · rw [replaceAll_cons_of_none matchCR [] c cs (by simp [matchCR, hc])]
      intro hmem
      rcases List.mem_cons.mp hmem with h1 | h1
      · exact hc h1.symm
      · exact not_mem_replaceAll_matchCR k cs hlen h1

/-- The result of `decodeAnsi` contains no carriage return. -/
theorem decodeAnsi_no_CR (str : String) : '\r' ∉ (decodeAnsi str).data := by
  intro h
  rcases mem_replaceAll matchNewlines ['\n'] '\r' _ 0 h with h1 | h1
  · simp at h1
  · exact not_mem_replaceAll_matchCR _ _ (le_refl _) h1

/-! ### Runs of newlines -/

theorem noNewlineRun_no_pair {l : List Char} (h : NoNewlineRun l) :
    ¬ ['\n', '\n'] <:+: l := by
  intro hin
  have h2 : List.Chain' (fun a b => ¬ (a = '\n' ∧ b = '\n')) ['\n', '\n'] := h.infix hin
  simp at h2

theorem matchNewlines_eq_some {c : Char} {cs : List Char} {k : Nat}
    (h : matchNewlines (c :: cs) = some k) :
    c = '\n' ∧ ∃ rest, cs = '\n' :: rest ∧
      k = (rest.takeWhile (fun d => d == '\n')).length + 2 := by
  simp only [matchNewlines] at h
  split_ifs at h with hc
  refine ⟨hc, ?_⟩
  split at h
  · rename_i rest
    exact ⟨rest, rfl, by simpa using h.symm⟩
  · simp at h

theorem drop_length_takeWhile (p : Char → Bool) :
    ∀ l : List Char, l.drop (l.takeWhile p).length = l.dropWhile p
  | [] => rfl
  | c :: cs => by
    by_cases h : p c = true
    · simp [List.takeWhile, List.dropWhile, h, drop_length_takeWhile p cs]
    · simp [List.takeWhile, List.dropWhile, h]

theorem head?_dropWhile_newline (l : List Char) :
    (l.dropWhile (fun d => d == '\n')).head? ≠ some '\n' := by
  intro h
  have := List.head?_dropWhile_not (fun d => d == '\n') l
  rw [h] at this
  simp at this

/-- Collapsing newline runs keeps the first character of the text. -/
theorem head?_replaceAll_matchNewlines (l : List Char) :
    (replaceAll matchNewlines ['\n'] 0 l).head? = l.head? := by
  cases l with
  | nil => rfl
  | cons c cs =>
    cases hm : matchNewlines (c :: cs) with
    | none => rw [replaceAll_cons_of_none _ _ _ _ hm]; rfl
    | some k =>
      obtain ⟨hc, rest, hcs, hk⟩ := matchNewlines_eq_some hm
      subst hk
      rw [replaceAll_cons_of_match _ _ _ _ _ hm]
      simp [hc]

theorem noNewlineRun_replaceAll :
    ∀ (k : Nat) (l : List Char), l.length ≤ k →
      NoNewlineRun (replaceAll matchNewlines ['\n'] 0 l)
  | _, [], _ => by simp [replaceAll_nil, NoNewlineRun]
  | 0, _ :: _, h => by simp at h
  | k + 1, c :: cs, h => by
    have hlen : cs.length ≤ k := by simpa using h
    cases hm : matchNewlines (c :: cs) with
    | none =>
      rw [replaceAll_cons_of_none _ _ _ _ hm]
      refine List.Chain'.cons' (noNewlineRun_replaceAll k cs hlen) ?_
      intro y hy ⟨hc, hyn⟩
      rw [head?_replaceAll_matchNewlines] at hy
      subst hyn
      cases cs with
      | nil => simp at hy
      | cons d ds =>
        simp at hy
        subst hy
        simp [matchNewlines, hc] at hm
    | some j =>
      obtain ⟨hc, rest, hcs, hj⟩ := matchNewlines_eq_some hm
      subst hj hcs
      rw [replaceAll_cons_of_match _ _ _ _ _ hm]
      simp only [List.drop_succ_cons, drop_length_takeWhile, List.singleton_append]
      refine List.Chain'.cons' (noNewlineRun_replaceAll k _ ?_) ?_
      · have h1 := (List.dropWhile_suffix (l := rest) (fun d => d == '\n')).length_le
        simp at hlen
        omega
      · intro y hy ⟨_, hyn⟩
        rw [head?_replaceAll_matchNewlines] at hy
        subst hyn
        exact head?_dropWhile_newline rest (by simpa using hy)

/-- The result of `decodeAnsi` has no two adjacent newlines. -/
theorem decodeAnsi_noNewlineRun (str : String) : NoNewlineRun (decodeAnsi str).data :=
  noNewlineRun_replaceAll _ _ (le_refl _)

/-! ### Escape sequences -/

theorem matchSgr_eq_some {c : Char} {cs : List Char} {k : Nat}
    (h : matchSgr (c :: cs) = some k) : c = ESC ∧ ∃ n, k = n + 3 := by
  simp only [matchSgr] at h
  split_ifs at h with hc
  refine ⟨hc, ?_⟩
  split at h
  · split at h
    · exact ⟨_, by simpa using h.symm⟩
    · simp at h
  · simp at h

theorem matchEraseLine_eq_some {c : Char} {cs : List Char} {k : Nat}
    (h : matchEraseLine (c :: cs) = some k) :
    c = ESC ∧ k = 3 ∧ ∃ rest, cs = '[' :: 'K' :: rest := by
  simp only [matchEraseLine] at h
  split_ifs at h with hc
  refine ⟨hc, ?_⟩
  split at h
  · rename_i rest
    exact ⟨by simpa using h.symm, rest, rfl⟩
  · simp at h

theorem matchSgr_of_ne_ESC {c : Char} (cs : List Char) (hc : c ≠ ESC) :
    matchSgr (c :: cs) = none := by
  simp [matchSgr, hc]

theorem escapesWellFormed_drop :
    ∀ (n : Nat) (l : List Char), escapesWellFormed l = true → escapesWellFormed (l.drop n) = true
  | 0, l, h => by simpa using h
  | _ + 1, [], _ => by simp [escapesWellFormed]
  | n + 1, c :: cs, h => by
    simp only [escapesWellFormed, Bool.and_eq_true] at h
    simpa using escapesWellFormed_drop n cs h.2

theorem escapesEraseOnly_drop :
    ∀ (n : Nat) (l : List Char), escapesEraseOnly l = true → escapesEraseOnly (l.drop n) = true
  | 0, l, h => by simpa using h
  | _ + 1, [], _ => by simp [escapesEraseOnly]
  | n + 1, c :: cs, h => by
    simp only [escapesEraseOnly, Bool.and_eq_true] at h
    simpa using escapesEraseOnly_drop n cs h.2

/-- Removing the SGR codes of a text with well-formed escapes leaves only line-clear codes. -/
theorem escapesEraseOnly_replaceAll_matchSgr :
    ∀ (k : Nat) (l : List Char), l.length ≤ k → escapesWellFormed l = true →
      escapesEraseOnly (replaceAll matchSgr [] 0 l) = true
  | _, [], _, _ => by simp [replaceAll_nil, escapesEraseOnly]
  | 0, _ :: _, h, _ => by simp at h
  | k + 1, c :: cs, h, hwf => by
    have hlen : cs.length ≤ k := by simpa using h
    have hwf2 := hwf
    simp only [escapesWellFormed, Bool.and_eq_true] at hwf2
    obtain ⟨hhead, htail⟩ := hwf2
    cases hm : matchSgr (c :: cs) with
    | some j =>
      obtain ⟨_, n, hj⟩ := matchSgr_eq_some hm
      subst hj
      rw [replaceAll_cons_of_match _ _ _ _ _ hm, List.nil_append]
      exact escapesEraseOnly_replaceAll_matchSgr k _
        (le_trans (by simp) hlen) (escapesWellFormed_drop _ _ htail)
    | none =>
      rw [replaceAll_cons_of_none _ _ _ _ hm]
      have ih := escapesEraseOnly_replaceAll_matchSgr k cs hlen htail
      simp only [escapesEraseOnly, Bool.and_eq_true]
      refine ⟨?_, ih⟩
      by_cases hc : c = ESC
      · rw [hm] at hhead
        have hK : (matchEraseLine (c :: cs)).isSome = true := by simpa [hc] using hhead
        obtain ⟨j, hj⟩ := Option.isSome_iff_exists.mp hK
        obtain ⟨_, _, rest, hrest⟩ := matchEraseLine_eq_some hj
        subst hrest
        have h1 : ('[' : Char) ≠ ESC := by decide
        have h2 : ('K' : Char) ≠ ESC := by decide
        rw [replaceAll_cons_of_none _ _ _ _ (matchSgr_of_ne_ESC _ h1),
          replaceAll_cons_of_none _ _ _ _ (matchSgr_of_ne_ESC _ h2)]
        simp [matchEraseLine, hc]
      · simp [hc]

/-- Removing the line-clear codes of a text whose escapes all begin one leaves no escape. -/
theorem not_mem_replaceAll_matchEraseLine :
    ∀ (k : Nat) (l : List Char), l.length ≤ k → escapesEraseOnly l = true →
      ESC ∉ replaceAll matchEraseLine [] 0 l
  | _, [], _, _ => by simp [replaceAll_nil]
  | 0, _ :: _, h, _ => by simp at h
  | k + 1, c :: cs, h, hwf => by
    have hlen : cs.length ≤ k := by simpa using h
    have hwf2 := hwf
    simp only [escapesEraseOnly, Bool.and_eq_true] at hwf2
    obtain ⟨hhead, htail⟩ := hwf2
    cases hm : matchEraseLine (c :: cs) with
    | some j =>
      obtain ⟨_, hj, _⟩ := matchEraseLine_eq_some hm
      subst hj
      rw [replaceAll_cons_of_match _ _ _ _ 2 hm, List.nil_append]
      exact not_mem_replaceAll_matchEraseLine k _
        (le_trans (by simp) hlen) (escapesEraseOnly_drop _ _ htail)
    | none =>
      rw [replaceAll_cons_of_none _ _ _ _ hm]
      rw [hm] at hhead
      have hc : c ≠ ESC := by simpa using hhead
      intro hmem
      rcases List.mem_cons.mp hmem with h1 | h1
      · exact hc h1.symm
      · exact not_mem_replaceAll_matchEraseLine k cs hlen htail h1

/-- On a log whose escape characters each begin a complete SGR or line-clear code,
`decodeAnsi` leaves no escape character. -/
theorem decodeAnsi_no_ESC (str : String) (h : escapesWellFormed str.data = true) :
    ESC ∉ (decodeAnsi str).data := by
  intro hmem
  have hE : ESC ∉ replaceAll matchEraseLine [] 0 (replaceAll matchSgr [] 0 str.data) :=
    not_mem_replaceAll_matchEraseLine _ _ (le_refl _)
      (escapesEraseOnly_replaceAll_matchSgr _ _ (le_refl _) h)
  rcases mem_replaceAll matchNewlines ['\n'] ESC _ 0 hmem with h1 | h1
  · revert h1; decide
  · rcases mem_replaceAll matchCR [] ESC _ 0 h1 with h2 | h2
    · simp at h2
    · exact hE h2

/-- A text without escape character contains no match of a pattern that starts with one. -/
theorem containsMatch_eq_false_of_not_mem (m : List Char → Option Nat) (l : List Char)
    (hm : ∀ c cs, (m (c :: cs)).isSome = true → c = ESC) (hnil : m [] = none)
    (h : ESC ∉ l) : containsMatch m l = false := by
  simp only [containsMatch, List.any_eq_false, List.mem_tails]
  intro t ht
  cases t with
  | nil => simp [hnil]
  | cons c cs =>
    intro hsome
    have hc := hm c cs hsome
    subst hc
    exact h (ht.subset (List.mem_cons_self _ _))

/-! ### Newline normalisation of the text area -/

theorem replaceAll_append_of_no_match (m : List Char → Option Nat) (rep : List Char)
    (y : List Char) :
    ∀ x : List Char, (∀ c ∈ x, ∀ cs, m (c :: cs) = none) →
      replaceAll m rep 0 (x ++ y) = x ++ replaceAll m rep 0 y
  | [], _ => rfl
  | c :: cs, h => by
    rw [List.cons_append, replaceAll_cons_of_none m rep c (cs ++ y)
      (h c (List.mem_cons_self _ _) _)]
    rw [replaceAll_append_of_no_match m rep y cs
      (fun d hd => h d (List.mem_cons_of_mem _ hd))]
    rfl

theorem matchCRLF_of_ne {c : Char} (cs : List Char) (hc : c ≠ '\r') :
    matchCRLF (c :: cs) = none := by
  simp [matchCRLF, hc]

/-- The getter of the text area never returns a carriage return. -/
theorem not_mem_normalizeNewlines (s : String) : '\r' ∉ (normalizeNewlines s).data := by
  simp only [normalizeNewlines, List.mem_map, not_exists, not_and]
  intro c _
  by_cases hc : c = '\r'
  · simp [hc]
  · simp [hc]

/-- Normalisation leaves a leading part without carriage return as it is. -/
theorem normalizeNewlines_append_left (x y : String) (hx : '\r' ∉ x.data) :
    normalizeNewlines (x ++ y) = x ++ normalizeNewlines y := by
  have hmap : x.data.map (fun c => if c = '\r' then '\n' else c) = x.data := by
    conv_rhs => rw [← List.map_id x.data]
    refine List.map_congr_left ?_
    intro c hc
    have : c ≠ '\r' := fun h => hx (h ▸ hc)
    simp [this]
  apply String.ext
  simp only [normalizeNewlines, String.data_append]
  rw [replaceAll_append_of_no_match matchCRLF ['\n'] y.data x.data
    (fun c hc cs => matchCRLF_of_ne cs (fun h => hx (h ▸ hc))), List.map_append, hmap]

theorem normalizeNewlines_empty : normalizeNewlines "" = "" := by decide

/-- Normalisation leaves a text without carriage return as it is. -/
theorem normalizeNewlines_of_no_CR (x : String) (hx : '\r' ∉ x.data) :
    normalizeNewlines x = x := by
  have h := normalizeNewlines_append_left x "" hx
  rwa [normalizeNewlines_empty, String.append_empty] at h

theorem digitChar_ne_CR (d : Nat) : '\r' ≠ Nat.digitChar d := by
  by_cases h : d < 16
  · interval_cases d <;> decide
  · have h0 : ¬ d = 0 := by omega
    have h1 : ¬ d = 1 := by omega
    have h2 : ¬ d = 2 := by omega
    have h3 : ¬ d = 3 := by omega
    have h4 : ¬ d = 4 := by omega
    have h5 : ¬ d = 5 := by omega
    have h6 : ¬ d = 6 := by omega
    have h7 : ¬ d = 7 := by omega
    have h8 : ¬ d = 8 := by omega
    have h9 : ¬ d = 9 := by omega
    have h10 : ¬ d = 10 := by omega
    have h11 : ¬ d = 11 := by omega
    have h12 : ¬ d = 12 := by omega
    have h13 : ¬ d = 13 := by omega
    have h14 : ¬ d = 14 := by omega
    have h15 : ¬ d = 15 := by omega
    simp only [Nat.digitChar, h0, h1, h2, h3, h4, h5, h6, h7, h8, h9, h10, h11, h12, h13, h14,
      h15, if_false]
    decide

theorem not_mem_toDigitsCore (b : Nat) :
    ∀ (fuel n : Nat) (acc : List Char), '\r' ∉ acc → '\r' ∉ Nat.toDigitsCore b fuel n acc
  | 0, _, acc, h => by
    rw [Nat.toDigitsCore]
    exact h
  | fuel + 1, n, acc, h => by
    have hcons : '\r' ∉ Nat.digitChar (n % b) :: acc := by
      intro hmem
      rcases List.mem_cons.mp hmem with h1 | h1
      · exact digitChar_ne_CR _ h1
      · exact h h1
    rw [Nat.toDigitsCore]
    split_ifs
    · exact hcons
    · exact not_mem_toDigitsCore b fuel _ _ hcons

theorem not_mem_toDigits (n : Nat) : '\r' ∉ Nat.toDigits 10 n :=
  not_mem_toDigitsCore 10 _ _ [] (by simp)

/-- The decimal form of a number contains no carriage return. -/
theorem not_mem_numberToString (x : JSNumber) : '\r' ∉ (numberToString x).data := by
  have hd := not_mem_toDigits x.s
  have he := not_mem_toDigits (x.n - 1).natAbs
  have htake : ∀ k, '\r' ∉ (Nat.toDigits 10 x.s).take k :=
    fun k h => hd (List.mem_of_mem_take h)
  have hdrop : ∀ k, '\r' ∉ (Nat.toDigits 10 x.s).drop k :=
    fun k h => hd (List.mem_of_mem_drop h)
  have htail : '\r' ∉ (Nat.toDigits 10 x.s).tail :=
    fun h => hd (List.mem_of_mem_tail h)
  have hrep : ∀ k, '\r' ∉ List.replicate k '0' := by
    intro k h
    have := List.eq_of_mem_replicate h
    revert this
    decide
  unfold numberToString
  split_ifs <;> simp [String.data_append, hd, he, htake, hdrop, hrep] <;>
    split_ifs <;> simp [hd, he, htake, hdrop, hrep, htail]

/-! ## Lemmas on the handlers -/

theorem orElse_empty (a : Option String) : orElse a "" = a.getD "" := by
  cases a with
  | none => rfl
  | some s =>
    by_cases h : s = ""
    · simp [orElse, h]
    · simp [orElse, h]

theorem dispatch_of_socket_none (channel : Option String) (r : Run) (e : WsEvent)
    (h : r.socket = none) : dispatch channel r e = r := by
  simp [dispatch, h]

theorem foldl_dispatch_of_socket_none (channel : Option String) (events : List WsEvent) :
    ∀ r : Run, r.socket = none → events.foldl (dispatch channel) r = r := by
  induction events with
  | nil => intro r _; rfl
  | cons e es ih =>
    intro r h
    rw [List.foldl_cons, dispatch_of_socket_none channel r e h]
    exact ih r h

theorem dispatch_of_closed (channel : Option String) (r : Run) (e : WsEvent) (ws : Socket)
    (h : r.socket = some ws) (hc : ws.readyState = .closed) : dispatch channel r e = r := by
  cases e <;> simp [dispatch, h, hc]

theorem foldl_dispatch_of_closed (channel : Option String) (events : List WsEvent) :
    ∀ (r : Run) (ws : Socket), r.socket = some ws → ws.readyState = .closed →
      events.foldl (dispatch channel) r = r := by
  induction events with
  | nil => intro r _ _ _; rfl
  | cons e es ih =>
    intro r ws h hc
    rw [List.foldl_cons, dispatch_of_closed channel r e ws h hc]
    exact ih r ws h hc

/-- A message of another type leaves the run as it is. -/
theorem onmessage_of_not_terminal (r : Run) (data : Option Message)
    (h : isTerminal data = false) : onmessage r data = r := by
  cases data with
  | none => rfl
  | some m =>
    cases m with
    | other tag ht => rfl
    | malformed tag ht => simp [isTerminal, Message.type, ht] at h
    | on_test_case_ide d => simp [isTerminal, Message.type, terminalTypes] at h
    | on_test_case_ide2 d => simp [isTerminal, Message.type, terminalTypes] at h
    | ide_compile_error d => simp [isTerminal, Message.type, terminalTypes] at h

/-- A terminal message with a malformed payload only closes the socket. -/
theorem onmessage_of_malformed (r : Run) (data : Option Message)
    (h : isTerminal data = true) (hc : completes data = false) :
    onmessage r data = wsClose r := by
  cases data with
  | none => simp [isTerminal] at h
  | some m =>
    cases m with
    | other tag ht => simp [isTerminal, Message.type, ht] at h
    | malformed tag ht => rfl
    | on_test_case_ide d => simp [completes] at hc
    | on_test_case_ide2 d => simp [completes] at hc
    | ide_compile_error d => simp [completes] at hc

theorem wsClose_of_socket (r : Run) (ws : Socket) (hs : r.socket = some ws) :
    wsClose r = { r with socket := some ws.close } := by
  simp [wsClose, hs]

theorem close_readyState_ne_opened (ws : Socket) : ws.close.readyState ≠ .opened := by
  unfold Socket.close
  by_cases h : ws.readyState = .opened ∨ ws.readyState = .connecting
  · simp [h]
  · simp only [h, if_false]
    exact fun ho => h (Or.inl ho)

/-- What a terminal message with a well-formed payload does to the socket, the deletion
log, the local id and the submit control. -/
theorem onmessage_of_terminal (r : Run) (ws : Socket) (data : Option Message)
    (hs : r.socket = some ws) (h : completes data = true) :
    (onmessage r data).socket = some ws.close ∧
      (onmessage r data).deleted = r.deleted ++
        [{ id := r.submissionId, csrfToken := getCsrfToken r.page.cookie,
           body := "id=" ++ interpolate r.submissionId }] ∧
      (onmessage r data).submissionId = r.submissionId ∧
      (onmessage r data).enableCalls = r.enableCalls + 1 ∧
      (onmessage r data).page.blurDisabled = false := by
  cases data with
  | none => simp [completes] at h
  | some m =>
    cases m with
    | other tag ht => simp [completes] at h
    | malformed tag ht => simp [completes] at h
    | on_test_case_ide d =>
      by_cases he : truthy d.error = true <;>
        simp [onmessage, wsClose, hs, setTerminal, appendTerminal, deleteSubmission,
          enableSubmit, he]
    | on_test_case_ide2 d =>
      simp only [onmessage]
      split <;>
        simp [wsClose, hs, setTerminal, appendTerminal, deleteSubmission, enableSubmit]
    | ide_compile_error d =>
      simp [onmessage, wsClose, hs, setTerminal, deleteSubmission, enableSubmit]

theorem wsClose_page (r : Run) : (wsClose r).page = r.page := by
  unfold wsClose
  cases r.socket <;> rfl

theorem enableSubmit_terminalValue (r : Run) :
    (enableSubmit r).page.terminalValue = r.page.terminalValue := rfl

theorem deleteSubmission_page (r : Run) (id : Option String) :
    (deleteSubmission r id).page = r.page := rfl

theorem appendTerminal_terminalValue (r : Run) (text : String) :
    (appendTerminal r text).page.terminalValue =
      normalizeNewlines r.page.terminalValue ++ text := rfl

theorem setTerminal_terminalValue (r : Run) (text : String) :
    (setTerminal r text).page.terminalValue = text := rfl

theorem normalizeNewlines_append_clean (x y : String) (hy : '\r' ∉ y.data) :
    normalizeNewlines (normalizeNewlines x ++ y) = normalizeNewlines x ++ y := by
  refine normalizeNewlines_of_no_CR _ ?_
  rw [String.data_append, List.mem_append]
  exact fun h => h.elim (not_mem_normalizeNewlines x) hy

theorem not_mem_timeLine (x : JSNumber) :
    '\r' ∉ ("\nElapsed Time: " ++ numberToString x ++ "s").data := by
  simp only [String.data_append, List.mem_append, not_or]
  exact ⟨⟨by decide, not_mem_numberToString x⟩, by decide⟩

theorem not_mem_memoryLine (x : JSNumber) :
    '\r' ∉ ("\nMemory Usage: " ++ numberToString x ++ " KB").data := by
  simp only [String.data_append, List.mem_append, not_or]
  exact ⟨⟨by decide, not_mem_numberToString x⟩, by decide⟩

/-- The two `+=` of the time and memory lines, on the text `x` assigned before them. -/
theorem metrics_text (x : String) (t mem : JSNumber) :
    normalizeNewlines (normalizeNewlines x ++ ("\nElapsed Time: " ++ numberToString t ++ "s")) ++
        ("\nMemory Usage: " ++ numberToString mem ++ " KB") =
      normalizeNewlines x ++ "\nElapsed Time: " ++ numberToString t ++ "s" ++
        "\nMemory Usage: " ++ numberToString mem ++ " KB" := by
  rw [normalizeNewlines_append_clean _ _ (not_mem_timeLine t)]
  simp only [String.append_assoc]

/-- The text after the time and memory lines is what the getter returns for it. -/
theorem metrics_text_shown (x : String) (t mem : JSNumber) :
    normalizeNewlines
        (normalizeNewlines (normalizeNewlines x ++ ("\nElapsed Time: " ++ numberToString t ++ "s")) ++
          ("\nMemory Usage: " ++ numberToString mem ++ " KB")) =
      normalizeNewlines (normalizeNewlines x ++ ("\nElapsed Time: " ++ numberToString t ++ "s")) ++
        ("\nMemory Usage: " ++ numberToString mem ++ " KB") :=
  normalizeNewlines_append_clean _ _ (not_mem_memoryLine mem)

/-- The `+=` of the error line, on the text `x` assigned before it. -/
theorem error_text (x e : String) :
    normalizeNewlines (normalizeNewlines x ++ ("\nError: " ++ e)) =
      normalizeNewlines x ++ "\nError: " ++ normalizeNewlines e := by
  rw [normalizeNewlines_append_left _ _ (not_mem_normalizeNewlines x),
    normalizeNewlines_append_left _ _ (by decide), String.append_assoc]

/-! ## Lemmas on a run -/

theorem dispatch_message_of_not_opened (channel : Option String) (r : Run) (ws : Socket)
    (data : Option Message) (h : r.socket = some ws) (hc : ws.readyState ≠ .opened) :
    dispatch channel r (.message data) = r := by
  simp [dispatch, h, hc]

theorem foldl_messages_of_not_opened (channel : Option String)
    (msgs : List (Option Message)) :
    ∀ (r : Run) (ws : Socket), r.socket = some ws → ws.readyState ≠ .opened →
      (msgs.map WsEvent.message).foldl (dispatch channel) r = r := by
  induction msgs with
  | nil => intro r _ _ _; rfl
  | cons m ms ih =>
    intro r ws h hc
    rw [List.map_cons, List.foldl_cons, dispatch_message_of_not_opened channel r ws m h hc]
    exact ih r ws h hc

/-- On an open socket, a sequence of messages calls `close()` once if it contains a
terminal message, and `deleteSubmission` once if the first terminal message completes. -/
theorem foldl_messages_of_opened (channel : Option String) (msgs : List (Option Message)) :
    ∀ (r : Run) (ws : Socket), r.socket = some ws → ws.readyState = .opened →
      ((msgs.map WsEvent.message).foldl (dispatch channel) r).deleted.length =
          r.deleted.length + cleanupCalls msgs ∧
        ((msgs.map WsEvent.message).foldl (dispatch channel) r).closeCalls =
          r.closeCalls + (if msgs.any isTerminal then 1 else 0) := by
  induction msgs with
  | nil => intro r _ _ _; simp [cleanupCalls]
  | cons m ms ih =>
    intro r ws h ho
    have hd : dispatch channel r (.message m) = onmessage r m := by
      simp [dispatch, h, ho]
    rw [List.map_cons, List.foldl_cons, hd]
    cases ht : isTerminal m with
    | false =>
      rw [onmessage_of_not_terminal r m ht]
      simpa [ht, cleanupCalls] using ih r ws h ho
    | true =>
      cases hc : completes m with
      | true =>
        obtain ⟨hsock, hdel, _, _, _⟩ := onmessage_of_terminal r ws m h hc
        rw [foldl_messages_of_not_opened channel ms _ _ hsock
          (close_readyState_ne_opened ws)]
        constructor
        · simp [hdel, ht, hc, cleanupCalls]
        · simp [Run.closeCalls, hsock, h, ht, Socket.close]
      | false =>
        rw [onmessage_of_malformed r m ht hc, wsClose_of_socket r ws h]
        rw [foldl_messages_of_not_opened channel ms _ ws.close rfl
          (close_readyState_ne_opened ws)]
        constructor
        · simp [ht, hc, cleanupCalls]
        · simp [Run.closeCalls, h, ht, Socket.close]

/-- The run after a submit response without `error`, once the socket has opened. -/
theorem runCode_openThen (env : Env) (p : Page) (data : SubmitData)
    (msgs : List (Option Message)) (h : truthy data.error = false) :
    runCode env p (.response true (.ok data)) (openThen msgs) =
      (msgs.map WsEvent.message).foldl (dispatch data.channel)
        { runCodeStart env p with
          submissionId := data.submission_id
          socket := some
            ({ url := wsUrl env, readyState := .opened, sent := [data.channel],
               closeCalls := 0 } : Socket) } := by
  simp [runCode, openThen, submitJson, submitSettled, channelOf, h, dispatch, onopen]

/-- Every deletion request of a run carries the local `submissionId`, and the handlers
never assign it. -/
theorem dispatch_deleted_ids (channel : Option String) (r : Run) (e : WsEvent)
    (h : ∀ d ∈ r.deleted, d.id = r.submissionId) :
    (dispatch channel r e).submissionId = r.submissionId ∧
      ∀ d ∈ (dispatch channel r e).deleted, d.id = r.submissionId := by
  cases hs : r.socket with
  | none => rw [dispatch_of_socket_none channel r e hs]; exact ⟨rfl, h⟩
  | some ws =>
    cases e with
    | opened =>
      by_cases hc : ws.readyState = .connecting
      · simpa [dispatch, hs, hc, onopen] using h
      · simpa [dispatch, hs, hc] using h
    | error =>
      by_cases hc : ws.readyState = .closed
      · simpa [dispatch, hs, hc] using h
      · simpa [dispatch, hs, hc, onerror, setTerminal] using h
    | message data =>
      by_cases ho : ws.readyState = .opened
      · have hd : dispatch channel r (.message data) = onmessage r data := by
          simp [dispatch, hs, ho]
        rw [hd]
        cases ht : isTerminal data with
        | false => rw [onmessage_of_not_terminal r data ht]; exact ⟨rfl, h⟩
        | true =>
          cases hc : completes data with
          | false =>
            rw [onmessage_of_malformed r data ht hc, wsClose_of_socket r ws hs]
            exact ⟨rfl, h⟩
          | true =>
            obtain ⟨_, hdel, hid, _, _⟩ := onmessage_of_terminal r ws data hs hc
            refine ⟨hid, ?_⟩
            intro d hd2
            rw [hdel] at hd2
            rcases List.mem_append.mp hd2 with h1 | h1
            · exact h d h1
            · simp at h1
              rw [h1]
      · rw [dispatch_message_of_not_opened channel r ws data hs ho]; exact ⟨rfl, h⟩

theorem foldl_dispatch_deleted_ids (channel : Option String) (events : List WsEvent) :
    ∀ r : Run, (∀ d ∈ r.deleted, d.id = r.submissionId) →
      ∀ d ∈ (events.foldl (dispatch channel) r).deleted, d.id = r.submissionId := by
  induction events with
  | nil => intro r h; exact h
  | cons e es ih =>
    intro r h
    rw [List.foldl_cons]
    obtain ⟨hid, hdel⟩ := dispatch_deleted_ids channel r e h
    have := ih (dispatch channel r e) (by rw [hid]; exact hdel)
    rw [hid] at this
    exact this

/-! ## The claims -/

/-- C1 (as the code behaves): on the request-error paths (a rejected `fetch`, a response
that is not `ok`, a response carrying `error`) and on the connection-error path (before
or after the socket has opened), the run ends with the class `blur-disabled` still on the submit control and without a single
call of `classList.remove`, whatever events follow. -/
theorem runCode_error_paths_keep_submit_disabled (env : Env) (p : Page)
    (events : List WsEvent) (channel submission_id detail : Option String) :
    (∀ message,
      (runCode env p (.failed message) events).page.blurDisabled = true ∧
        (runCode env p (.failed message) events).enableCalls = 0) ∧
    (∀ body,
      (runCode env p (.response false body) events).page.blurDisabled = true ∧
        (runCode env p (.response false body) events).enableCalls = 0) ∧
    ((runCode env p
        (.response true (.ok ⟨some "bad language", channel, submission_id, detail⟩))
        events).page.blurDisabled = true ∧
      (runCode env p
        (.response true (.ok ⟨some "bad language", channel, submission_id, detail⟩))
        events).enableCalls = 0) ∧
    ((runCode env p (.response true (.ok ⟨none, channel, submission_id, detail⟩))
        (.error :: events)).page.blurDisabled = true ∧
      (runCode env p (.response true (.ok ⟨none, channel, submission_id, detail⟩))
        (.error :: events)).enableCalls = 0) ∧
    ((runCode env p (.response true (.ok ⟨none, channel, submission_id, detail⟩))
        (.opened :: .error :: events)).page.blurDisabled = true ∧
      (runCode env p (.response true (.ok ⟨none, channel, submission_id, detail⟩))
        (.opened :: .error :: events)).enableCalls = 0) := by
  refine ⟨?_, ?_, ?_, ?_, ?_⟩
  · intro message
    rw [runCode, foldl_dispatch_of_socket_none _ _ _ (by simp [submitJson, submitSettled,
      setTerminal, runCodeStart])]
    simp [submitJson, submitSettled, setTerminal, runCodeStart]
  · intro body
    rw [runCode, foldl_dispatch_of_socket_none _ _ _ (by
      cases body <;> simp [submitJson, submitSettled, setTerminal, runCodeStart])]
    cases body <;> simp [submitJson, submitSettled, setTerminal, runCodeStart]
  · rw [runCode, foldl_dispatch_of_socket_none _ _ _ (by simp [submitJson, submitSettled,
      truthy, runCodeStart])]
    simp [submitJson, submitSettled, truthy, runCodeStart]
  · rw [runCode, List.foldl_cons, foldl_dispatch_of_closed _ _ _
      { url := wsUrl env, readyState := .closed, sent := [], closeCalls := 0 }
      (by simp [submitJson, submitSettled, truthy, runCodeStart, dispatch, onerror,
        setTerminal]) rfl]
    simp [submitJson, submitSettled, truthy, runCodeStart, dispatch, onerror, setTerminal]
  · rw [runCode, List.foldl_cons, List.foldl_cons, foldl_dispatch_of_closed _ _ _
      { url := wsUrl env, readyState := .closed, sent := [channel], closeCalls := 0 }
      (by simp [submitJson, submitSettled, truthy, runCodeStart, dispatch, onerror, onopen,
        setTerminal, channelOf]) rfl]
    simp [submitJson, submitSettled, truthy, runCodeStart, dispatch, onerror, onopen,
      setTerminal]

/-- C2 (counterexample): for the single message `{type: "on_test_case_ide"}`, which has
no `result`, the handler calls `ws.close()` and then throws: the sequence contains a
terminal message, the socket is closed once, and `deleteSubmission` is not called. -/
theorem onmessage_bare_terminal_counterexample :
    [some bareMessage].any isTerminal = true ∧
      (runCode sampleEnv samplePage (.response true (.ok sampleData))
        (openThen [some bareMessage])).closeCalls = 1 ∧
      (runCode sampleEnv samplePage (.response true (.ok sampleData))
        (openThen [some bareMessage])).deleted.length = 0 := by
  decide

/-- C2 (amended): a message whose type is none of the three terminal types, or whose data
cannot be decoded, leaves the run exactly as it was; and in a run whose socket opens and
then receives any sequence of messages, `close()` is called at most once, exactly once
if the sequence contains a message of a terminal type, and `deleteSubmission` is called
at most once: exactly once if the first message of a terminal type has a payload on
which its branch runs to its end, and never if there is no such message or if its
payload is malformed. -/
theorem onmessage_cleanup_at_most_once (env : Env) (p : Page) (data : SubmitData)
    (msgs : List (Option Message)) (h : truthy data.error = false) :
    (∀ (r : Run) (m : Message), m.type ∉ terminalTypes → onmessage r (some m) = r) ∧
    (∀ r : Run, onmessage r none = r) ∧
    (∀ (r : Run) (channel : Option String) (m : Message), m.type ∉ terminalTypes →
      dispatch channel r (.message (some m)) = r) ∧
    (runCode env p (.response true (.ok data)) (openThen msgs)).closeCalls ≤ 1 ∧
    (runCode env p (.response true (.ok data)) (openThen msgs)).closeCalls =
      (if msgs.any isTerminal then 1 else 0) ∧
    (runCode env p (.response true (.ok data)) (openThen msgs)).deleted.length ≤ 1 ∧
    (runCode env p (.response true (.ok data)) (openThen msgs)).deleted.length =
      (match msgs.find? isTerminal with
        | some m => if completes m then 1 else 0
        | none => 0) := by
  have hnt : ∀ (r : Run) (m : Message), m.type ∉ terminalTypes → onmessage r (some m) = r :=
    fun r m hm => onmessage_of_not_terminal r (some m) (by simp [isTerminal, hm])
  have hrun := foldl_messages_of_opened data.channel msgs
    { runCodeStart env p with
      submissionId := data.submission_id
      socket := some
        ({ url := wsUrl env, readyState := .opened, sent := [data.channel],
           closeCalls := 0 } : Socket) } _ rfl rfl
  rw [← runCode_openThen env p data msgs h] at hrun
  have hdel : (runCode env p (.response true (.ok data)) (openThen msgs)).deleted.length =
      cleanupCalls msgs := by
    rw [hrun.1]
    simp [runCodeStart]
  refine ⟨hnt, fun r => rfl, ?_, ?_, ?_, ?_, ?_⟩
  · intro r channel m hm
    cases hs : r.socket with
    | none => exact dispatch_of_socket_none channel r _ hs
    | some ws =>
      by_cases ho : ws.readyState = .opened
      · simp [dispatch, hs, ho, hnt r m hm]
      · exact dispatch_message_of_not_opened channel r ws _ hs ho
  · rw [hrun.2]
    simp [Run.closeCalls, runCodeStart]
    split <;> simp
  · rw [hrun.2]
    simp [Run.closeCalls, runCodeStart]
  · rw [hdel]
    unfold cleanupCalls
    split
    · split <;> simp
    · simp
  · rw [hdel]
    rfl

/-- The sample run closes its socket once and deletes the submission once, although two
terminal messages arrive. -/
theorem onmessage_cleanup_at_most_once_witness :
    truthy sampleData.error = false ∧
      (runCode sampleEnv samplePage (.response true (.ok sampleData))
        (openThen sampleMessages)).closeCalls = 1 ∧
      (runCode sampleEnv samplePage (.response true (.ok sampleData))
        (openThen sampleMessages)).deleted.length = 1 :=
  ⟨rfl,
    (onmessage_cleanup_at_most_once sampleEnv samplePage sampleData sampleMessages
      rfl).2.2.2.2.1.trans (by decide),
    (onmessage_cleanup_at_most_once sampleEnv samplePage sampleData sampleMessages
      rfl).2.2.2.2.2.2.trans (by decide)⟩

/-- C3 (as the code behaves): for the submit response `{error: "bad language"}` no
WebSocket is constructed and `deleteSubmission` is not called, but the error text is
assigned to `terminal.textContent`; `terminal.value`, where every other outcome is
written, still reads `Running code...`. -/
theorem runCode_backend_error_misses_terminal_value (env : Env) (p : Page)
    (events : List WsEvent) (channel submission_id detail : Option String) :
    (runCode env p
        (.response true (.ok ⟨some "bad language", channel, submission_id, detail⟩))
        events).page.terminalValue = "Running code...\n" ∧
    (runCode env p
        (.response true (.ok ⟨some "bad language", channel, submission_id, detail⟩))
        events).page.terminalTextContent = "Error: bad language" ∧
    (runCode env p
        (.response true (.ok ⟨some "bad language", channel, submission_id, detail⟩))
        events).socket = none ∧
    (runCode env p
        (.response true (.ok ⟨some "bad language", channel, submission_id, detail⟩))
        events).deleted = [] := by
  rw [runCode, foldl_dispatch_of_socket_none _ _ _ (by simp [submitJson, submitSettled,
    truthy, runCodeStart])]
  simp [submitJson, submitSettled, truthy, runCodeStart, interpolate]


/-- C4 (counterexample): for the payload `{proc_output: "OK", error: "",
execution_time: 0.12, max_memory: 1024}` the error field is present, yet the rendered
text has no error line; and for `{proc_output: "a\r\nb\rc", execution_time: 1,
max_memory: 2}` the text starts with `a\nb\nc`, not with `proc_output`, because `+=`
reads the text area back with its newlines normalised.  Neither is the text the claim
describes. -/
theorem exec_text_counterexample :
    (runCode sampleEnv samplePage (.response true (.ok sampleData))
        (openThen [some (.on_test_case_ide emptyErrorResult)])).page.terminalValue
      = "OK\nElapsed Time: 0.12s\nMemory Usage: 1024 KB" ∧
    specExecText emptyErrorResult = "OK\nError: \nElapsed Time: 0.12s\nMemory Usage: 1024 KB" ∧
    (runCode sampleEnv samplePage (.response true (.ok sampleData))
        (openThen [some (.on_test_case_ide emptyErrorResult)])).page.terminalValue
      ≠ specExecText emptyErrorResult ∧
    (runCode sampleEnv samplePage (.response true (.ok sampleData))
        (openThen [some (.on_test_case_ide carriageReturnResult)])).page.terminalValue
      = "a\nb\nc\nElapsed Time: 1s\nMemory Usage: 2 KB" ∧
    specExecText carriageReturnResult = "a\r\nb\rc\nElapsed Time: 1s\nMemory Usage: 2 KB" ∧
    (runCode sampleEnv samplePage (.response true (.ok sampleData))
        (openThen [some (.on_test_case_ide carriageReturnResult)])).page.terminalValue
      ≠ specExecText carriageReturnResult := by
  decide

/-- C4 (amended): after an `on_test_case_ide` message the text of the terminal is
`proc_output` (empty when absent) with its newlines normalised, then the error line, with
the error normalised likewise, when `error` is present and not empty, then the time and
memory lines with the numbers as `Number::toString` prints them; this stored text is what
the getter of `terminal.value` returns; and for `OK`, 0.12 and 1024 without error the text
is `OK\nElapsed Time: 0.12s\nMemory Usage: 1024 KB`. -/
theorem exec_text (r : Run) (resultData : ExecResult) :
    (onmessage r (some (.on_test_case_ide resultData))).page.terminalValue =
      normalizeNewlines (resultData.proc_output.getD "") ++
        (match resultData.error with
          | some e => if e = "" then "" else "\nError: " ++ normalizeNewlines e
          | none => "") ++
        "\nElapsed Time: " ++ numberToString resultData.execution_time ++ "s" ++
        "\nMemory Usage: " ++ numberToString resultData.max_memory ++ " KB" ∧
    (onmessage r (some (.on_test_case_ide resultData))).page.value =
      (onmessage r (some (.on_test_case_ide resultData))).page.terminalValue ∧
    (onmessage r (some (.on_test_case_ide sampleResult))).page.terminalValue =
      "OK\nElapsed Time: 0.12s\nMemory Usage: 1024 KB" := by
  have key : ∀ d : ExecResult,
      (onmessage r (some (.on_test_case_ide d))).page.terminalValue =
        normalizeNewlines (d.proc_output.getD "") ++
          (match d.error with
            | some e => if e = "" then "" else "\nError: " ++ normalizeNewlines e
            | none => "") ++
          "\nElapsed Time: " ++ numberToString d.execution_time ++ "s" ++
          "\nMemory Usage: " ++ numberToString d.max_memory ++ " KB" := by
    intro d
    rcases d with ⟨out, err, t, mem⟩
    cases err with
    | none =>
      simp only [onmessage, truthy, enableSubmit_terminalValue, deleteSubmission_page,
        appendTerminal_terminalValue, setTerminal_terminalValue, orElse_empty,
        Bool.false_eq_true, if_false]
      rw [metrics_text]
      simp only [String.append_assoc, String.empty_append]
    | some e =>
      by_cases he : e = ""
      · subst he
        simp only [onmessage, truthy, enableSubmit_terminalValue, deleteSubmission_page,
          appendTerminal_terminalValue, setTerminal_terminalValue, orElse_empty,
          bne_self_eq_false, Bool.false_eq_true, if_false, if_true]
        rw [metrics_text]
        simp only [String.append_assoc, String.empty_append]
      · have hb : (e != "") = true := by simpa using he
        simp only [onmessage, truthy, enableSubmit_terminalValue, deleteSubmission_page,
          appendTerminal_terminalValue, setTerminal_terminalValue, orElse_empty,
          hb, he, if_true, if_false, interpolate]
        rw [metrics_text, error_text]
        simp only [String.append_assoc]
  have shown : ∀ d : ExecResult,
      (onmessage r (some (.on_test_case_ide d))).page.value =
        (onmessage r (some (.on_test_case_ide d))).page.terminalValue := by
    intro d
    by_cases he : truthy d.error = true
    · simp only [Page.value, onmessage, he, enableSubmit_terminalValue, deleteSubmission_page,
        appendTerminal_terminalValue, if_true]
      exact metrics_text_shown _ _ _
    · simp only [Page.value, onmessage, he, enableSubmit_terminalValue, deleteSubmission_page,
        appendTerminal_terminalValue, if_false]
      exact metrics_text_shown _ _ _
  refine ⟨key resultData, shown resultData, ?_⟩
  rw [key sampleResult]
  decide

/-- C5: after an `on_test_case_ide2` message whose name is `test-case-status` and whose
cases are a non-empty sequence, the terminal shows the output (its newlines normalised by
the text area), time and memory of the first case only, so the later cases never change
the text; for any other payload (a
different or absent name, cases absent or empty) the text is exactly `Compile Error!`. -/
theorem case_status_text (r : Run) (status : CaseStatus) :
    (∀ c rest, status.name = some "test-case-status" → status.cases = some (c :: rest) →
      (onmessage r (some (.on_test_case_ide2 status))).page.terminalValue =
        normalizeNewlines (c.output.getD "") ++ "\nElapsed Time: " ++ numberToString c.time ++ "s" ++
          "\nMemory Usage: " ++ numberToString c.memory ++ " KB") ∧
    (∀ c rest rest',
      (onmessage r (some (.on_test_case_ide2 ⟨status.name, some (c :: rest)⟩))).page.terminalValue =
      (onmessage r (some (.on_test_case_ide2 ⟨status.name, some (c :: rest')⟩))).page.terminalValue) ∧
    (¬ (status.name = some "test-case-status" ∧ ∃ c rest, status.cases = some (c :: rest)) →
      (onmessage r (some (.on_test_case_ide2 status))).page.terminalValue =
        "Compile Error!") := by
  have hfirst : ∀ (c : TestCase) (rest : List TestCase),
      (onmessage r (some (.on_test_case_ide2
        ⟨some "test-case-status", some (c :: rest)⟩))).page.terminalValue =
      normalizeNewlines (c.output.getD "") ++ "\nElapsed Time: " ++ numberToString c.time ++
        "s" ++ "\nMemory Usage: " ++ numberToString c.memory ++ " KB" := by
    intro c rest
    simp only [onmessage, enableSubmit_terminalValue, deleteSubmission_page,
      appendTerminal_terminalValue, setTerminal_terminalValue, orElse_empty,
      beq_self_eq_true]
    exact metrics_text _ _ _
  have helse : ∀ st : CaseStatus,
      ¬ (st.name = some "test-case-status" ∧ ∃ c rest, st.cases = some (c :: rest)) →
      (onmessage r (some (.on_test_case_ide2 st))).page.terminalValue =
        "Compile Error!" := by
    intro st h
    rcases st with ⟨name, cases⟩
    by_cases hn : name = some "test-case-status"
    · have hb : (name == some "test-case-status") = true := by simp [hn]
      match cases, h with
      | none, _ =>
        simp only [onmessage, hb, enableSubmit_terminalValue, deleteSubmission_page,
          setTerminal_terminalValue]
      | some [], _ =>
        simp only [onmessage, hb, enableSubmit_terminalValue, deleteSubmission_page,
          setTerminal_terminalValue]
      | some (c :: rest), h => exact absurd ⟨hn, c, rest, rfl⟩ h
    · have hb : (name == some "test-case-status") = false := by simp [hn]
      simp only [onmessage, hb, enableSubmit_terminalValue, deleteSubmission_page,
        setTerminal_terminalValue]
  refine ⟨?_, ?_, helse status⟩
  · intro c rest hn hc
    rcases status with ⟨name, cases⟩
    simp only at hn hc
    subst hn hc
    exact hfirst c rest
  · intro c rest rest'
    by_cases hn : status.name = some "test-case-status"
    · rw [hn, hfirst c rest, hfirst c rest']
    · exact (helse ⟨status.name, some (c :: rest)⟩ (fun h => hn h.1)).trans
        (helse ⟨status.name, some (c :: rest')⟩ (fun h => hn h.1)).symm

/-- The first case of `sampleCases` alone is rendered, and a payload named `other` gives
`Compile Error!`. -/
theorem case_status_text_witness :
    (onmessage sampleRun (some (.on_test_case_ide2
        ⟨some "test-case-status", some sampleCases⟩))).page.terminalValue =
      "5\nElapsed Time: 0.01s\nMemory Usage: 512 KB" ∧
    (onmessage sampleRun (some (.on_test_case_ide2
        ⟨some "other", none⟩))).page.terminalValue = "Compile Error!" :=
  ⟨((case_status_text sampleRun ⟨some "test-case-status", some sampleCases⟩).1 _ _
      rfl rfl).trans (by decide),
    (case_status_text sampleRun ⟨some "other", none⟩).2.2
      (fun h => absurd h.1 (by decide))⟩

theorem onmessage_compile_terminalValue (r : Run) (log : Option String) :
    (onmessage r (some (.ide_compile_error log))).page.terminalValue =
      "Compile Error:\n" ++ decodeAnsi (orElse log "Unknown Compile Error!") := by
  simp only [onmessage, enableSubmit_terminalValue, deleteSubmission_page,
    setTerminal_terminalValue]

/-- C6 (counterexample): for a message whose log field is present and empty the terminal
shows `Compile Error:\nUnknown Compile Error!`, not `Compile Error:\n` followed by the
normalised (empty) log. -/
theorem compile_text_empty_log_counterexample :
    (onmessage sampleRun (some (.ide_compile_error (some "")))).page.terminalValue =
        "Compile Error:\nUnknown Compile Error!" ∧
      specCompileText (some "") = "Compile Error:\n" ∧
      (onmessage sampleRun (some (.ide_compile_error (some "")))).page.terminalValue ≠
        specCompileText (some "") := by
  decide

/-- C6 (amended): after an `ide-compile-error` message the terminal shows
`Compile Error:\n` followed by `decodeAnsi(log)` when the log is present and not empty;
when the log field is absent or empty, `Unknown Compile Error!` takes its place and the
text is exactly `Compile Error:\nUnknown Compile Error!`. -/
theorem compile_text (r : Run) :
    (∀ log : String, log ≠ "" →
      (onmessage r (some (.ide_compile_error (some log)))).page.terminalValue =
        "Compile Error:\n" ++ decodeAnsi log) ∧
    (onmessage r (some (.ide_compile_error none))).page.terminalValue =
      "Compile Error:\nUnknown Compile Error!" ∧
    (onmessage r (some (.ide_compile_error (some "")))).page.terminalValue =
      "Compile Error:\nUnknown Compile Error!" := by
  refine ⟨?_, ?_, ?_⟩
  · intro log hlog
    have hb : (log != "") = true := by simpa using hlog
    rw [onmessage_compile_terminalValue]
    simp only [orElse, hb, if_true]
  · rw [onmessage_compile_terminalValue]
    decide
  · rw [onmessage_compile_terminalValue]
    decide

/-- The sample log is rendered without its codes, carriage return and blank lines. -/
theorem compile_text_witness :
    sampleLog ≠ "" ∧
      (onmessage sampleRun (some (.ide_compile_error (some sampleLog)))).page.terminalValue =
        "Compile Error:\nerror: expected ';'\n1 error" :=
  ⟨by decide, ((compile_text sampleRun).1 sampleLog (by decide)).trans (by decide)⟩

/-- C7 (counterexample): for the log `\nerr` the rendered text is `Compile Error:\n\nerr`,
which contains two consecutive newlines. -/
theorem compile_text_newline_run_counterexample :
    (onmessage sampleRun (some (.ide_compile_error (some "\nerr")))).page.terminalValue =
        "Compile Error:\n\nerr" ∧
      ['\n', '\n'] <:+:
        (onmessage sampleRun (some (.ide_compile_error (some "\nerr")))).page.terminalValue.data :=
  ⟨by decide, ⟨"Compile Error:".data, "err".data, by decide⟩⟩

/-- C7 (amended): `decodeAnsi(log)` never contains two consecutive newlines, and the text
rendered for an `ide-compile-error` message contains none whenever the normalised log
does not begin with a newline. -/
theorem compile_text_no_newline_run (r : Run) (log : Option String) :
    (∀ str : String, ¬ ['\n', '\n'] <:+: (decodeAnsi str).data) ∧
    ((decodeAnsi (orElse log "Unknown Compile Error!")).data.head? ≠ some '\n' →
      ¬ ['\n', '\n'] <:+:
        (onmessage r (some (.ide_compile_error log))).page.terminalValue.data) := by
  refine ⟨fun str => noNewlineRun_no_pair (decodeAnsi_noNewlineRun str), ?_⟩
  intro hhead
  rw [onmessage_compile_terminalValue, String.data_append]
  have hlit : "Compile Error:\n".data =
      ['C', 'o', 'm', 'p', 'i', 'l', 'e', ' ', 'E', 'r', 'r', 'o', 'r', ':', '\n'] := rfl
  refine noNewlineRun_no_pair (List.Chain'.append ?_ (decodeAnsi_noNewlineRun _) ?_)
  · rw [hlit]
    simp
  · intro x hx y hy ⟨_, hyn⟩
    subst hyn
    exact hhead (by simpa using hy)

/-- The sample log has three consecutive newlines; its rendering has no two. -/
theorem compile_text_no_newline_run_witness :
    ['\n', '\n', '\n'] <:+: sampleLog.data ∧
      (decodeAnsi (orElse (some sampleLog) "Unknown Compile Error!")).data.head? ≠ some '\n' ∧
      ¬ ['\n', '\n'] <:+:
        (onmessage sampleRun (some (.ide_compile_error (some sampleLog)))).page.terminalValue.data :=
  ⟨⟨"\x1b[01;31merror\x1b[0m\x1b[K: expected ';'\r".data, "1 error".data, by decide⟩,
    by decide,
    (compile_text_no_newline_run sampleRun (some sampleLog)).2 (by decide)⟩

/-- C8 (counterexample): the log `ESC [ ESC [ 0 m m` is turned into `ESC [ m`, which is an
SGR colour code. -/
theorem decodeAnsi_sgr_counterexample :
    decodeAnsi "\x1b[\x1b[0mm" = "\x1b[m" ∧
      containsMatch matchSgr (decodeAnsi "\x1b[\x1b[0mm").data = true := by
  decide

/-- C8 (amended): `decodeAnsi(log)` never contains a carriage return; and when every
escape character of the log begins a complete SGR code or a complete line-clear code,
the result contains no escape character at all, hence no SGR code and no line-clear
code. -/
theorem decodeAnsi_no_escape (log : String) :
    '\r' ∉ (decodeAnsi log).data ∧
    (escapesWellFormed log.data = true →
      ESC ∉ (decodeAnsi log).data ∧
        containsMatch matchSgr (decodeAnsi log).data = false ∧
        containsMatch matchEraseLine (decodeAnsi log).data = false) := by
  refine ⟨decodeAnsi_no_CR log, fun h => ?_⟩
  have hesc := decodeAnsi_no_ESC log h
  refine ⟨hesc, ?_, ?_⟩
  · refine containsMatch_eq_false_of_not_mem matchSgr _ ?_ rfl hesc
    intro c cs hsome
    obtain ⟨k, hk⟩ := Option.isSome_iff_exists.mp hsome
    exact (matchSgr_eq_some hk).1
  · refine containsMatch_eq_false_of_not_mem matchEraseLine _ ?_ rfl hesc
    intro c cs hsome
    obtain ⟨k, hk⟩ := Option.isSome_iff_exists.mp hsome
    exact (matchEraseLine_eq_some hk).1

/-- The sample log contains colour codes; its normalisation contains no escape. -/
theorem decodeAnsi_no_escape_witness :
    containsMatch matchSgr sampleLog.data = true ∧
      escapesWellFormed sampleLog.data = true ∧
      ESC ∉ (decodeAnsi sampleLog).data ∧
      containsMatch matchSgr (decodeAnsi sampleLog).data = false ∧
      containsMatch matchEraseLine (decodeAnsi sampleLog).data = false :=
  ⟨by decide, by decide, (decodeAnsi_no_escape sampleLog).2 (by decide)⟩

/-- C9 (counterexample): when the submit response is `{channel: "ch1",
submission_id: "none"}`, the terminal message makes `runCode` call
`deleteSubmission("none")`. -/
theorem deleteSubmission_sentinel_counterexample :
    (runCode sampleEnv samplePage (.response true (.ok sentinelData))
        (openThen [some (.on_test_case_ide sampleResult)])).deleted.map (fun d => d.id) =
      [some "none"] := by
  decide

/-- C9 (amended): a run calls `deleteSubmission` only after an `ok` submit response whose
body has no truthy `error`, and every call carries the `submission_id` of that body
(`undefined` when the body has none); so the id differs from `none` whenever the
`submission_id` of the response does. -/
theorem deleteSubmission_ids (env : Env) (p : Page) (submit : FetchOutcome SubmitData)
    (events : List WsEvent) :
    (∀ d ∈ (runCode env p submit events).deleted,
      ∃ data, submit = .response true (.ok data) ∧ truthy data.error = false ∧
        d.id = data.submission_id) ∧
    ((∀ data, submit = .response true (.ok data) → data.submission_id ≠ some "none") →
      ∀ d ∈ (runCode env p submit events).deleted, d.id ≠ some "none") := by
  have key : ∀ d ∈ (runCode env p submit events).deleted,
      ∃ data, submit = .response true (.ok data) ∧ truthy data.error = false ∧
        d.id = data.submission_id := by
    intro d hd
    have hnone : ∀ r : Run, r.socket = none → r.deleted = [] →
        d ∈ (events.foldl (dispatch (channelOf (submitJson submit))) r).deleted → False := by
      intro r hs hdel hmem
      rw [foldl_dispatch_of_socket_none _ _ _ hs, hdel] at hmem
      simp at hmem
    match submit, hd with
    | .failed message, hd => exact (hnone _ rfl rfl hd).elim
    | .response _ (.error message), hd =>
      exact (hnone _ (by simp [submitJson, submitSettled, setTerminal, runCodeStart])
        (by simp [submitJson, submitSettled, setTerminal, runCodeStart]) hd).elim
    | .response false (.ok data), hd => exact (hnone _ rfl rfl hd).elim
    | .response true (.ok data), hd =>
      by_cases he : truthy data.error = true
      · exact (hnone _ (by simp [submitJson, submitSettled, he, runCodeStart])
          (by simp [submitJson, submitSettled, he, runCodeStart]) hd).elim
      · refine ⟨data, rfl, by simpa using he, ?_⟩
        have := foldl_dispatch_deleted_ids (channelOf (submitJson (.response true (.ok data))))
          events (submitSettled env (runCodeStart env p)
            (submitJson (.response true (.ok data))))
          (by simp [submitJson, submitSettled, he, runCodeStart]) d hd
        simpa [submitJson, submitSettled, he] using this
  refine ⟨key, fun h d hd => ?_⟩
  obtain ⟨data, hsub, _, hid⟩ := key d hd
  rw [hid]
  exact h data hsub

/-- The run of `sampleData` deletes submission `42`, and the run of the response `{}`
calls `deleteSubmission(undefined)`; neither id is the sentinel. -/
theorem deleteSubmission_ids_witness :
    (runCode sampleEnv samplePage (.response true (.ok sampleData))
        (openThen sampleMessages)).deleted.map (fun d => d.id) = [some "42"] ∧
      (∀ d ∈ (runCode sampleEnv samplePage (.response true (.ok sampleData))
        (openThen sampleMessages)).deleted, d.id ≠ some "none") ∧
      (runCode sampleEnv samplePage (.response true (.ok emptyData))
        (openThen sampleMessages)).deleted.map (fun d => d.body) = ["id=undefined"] ∧
      (∀ d ∈ (runCode sampleEnv samplePage (.response true (.ok emptyData))
        (openThen sampleMessages)).deleted, d.id ≠ some "none") :=
  ⟨by decide,
    (deleteSubmission_ids sampleEnv samplePage (.response true (.ok sampleData))
      (openThen sampleMessages)).2 (fun data h => by
        cases h
        decide),
    by decide,
    (deleteSubmission_ids sampleEnv samplePage (.response true (.ok emptyData))
      (openThen sampleMessages)).2 (fun data h => by
        cases h
        decide)⟩

/-- C10: however the deletion request ends (a network error, a body that is not valid
JSON, a `null` body, a response with `success` false or true), the last promise of the
chain of `deleteSubmission` is fulfilled, so no error leaves it, and `terminal.value`,
`terminal.textContent` and the class of the submit control are what they were before
the call. -/
theorem deleteSubmission_swallows_failure (r : Run) (submissionId : Option String)
    (o : FetchOutcome (Option DeleteData)) :
    (deleteSettled (deleteSubmission r submissionId).page submissionId o).2 = .fulfilled () ∧
    (deleteSettled (deleteSubmission r submissionId).page submissionId o).1.terminalValue =
      r.page.terminalValue ∧
    (deleteSettled (deleteSubmission r submissionId).page submissionId o).1.terminalTextContent =
      r.page.terminalTextContent ∧
    (deleteSettled (deleteSubmission r submissionId).page submissionId o).1.blurDisabled =
      r.page.blurDisabled := by
  rw [deleteSubmission_page]
  match o with
  | .failed message => exact ⟨rfl, rfl, rfl, rfl⟩
  | .response _ (.error message) => exact ⟨rfl, rfl, rfl, rfl⟩
  | .response _ (.ok none) => exact ⟨rfl, rfl, rfl, rfl⟩
  | .response _ (.ok (some data)) =>
    cases hs : data.success <;>
      simp [deleteSettled, deleteJson, deleteThen, deleteCatch, hs]

end Ide
